import Mathlib

/-!
Verification development for the casters-tool frontend.

Shallow embedding of:
  - src/frontend/js/api.js  (REST client: request methods, API.get error handling)
  - src/frontend/js/cache.js (EventCache: IndexedDB-backed key-value cache)
  - src/docs/js/app.js and the unnamed app.js parts
    (bracket renderer, match navigation, team-table sorting)

JavaScript values that flow through API.get are modelled by a small JSON
universe `JsonVal`; machine behaviour such as `Date.now()` is passed in as an
explicit `now : Nat` parameter; the two distinct failure points of an
IndexedDB operation (the `indexedDB.open` call, and the subsequent
request/transaction) are modelled by two explicit Boolean failure flags.
-/

/-- A JSON value as produced by `resp.json()`.  Arrays are not needed by any
claim and are omitted from the universe. -/
inductive JsonVal where
  | null
  | bool (b : Bool)
  | num (n : Int)
  | str (s : String)
  | obj (fields : List (String × JsonVal))

/-- Property access `j.k` in JavaScript: field lookup on an object, and
`undefined` (here `none`) on every non-object except `null` (access on `null`
throws; callers model that case separately). -/
def JsonVal.getField : JsonVal → String → Option JsonVal
  | JsonVal.obj fs, k => (fs.find? (fun p => p.1 == k)).map (fun p => p.2)
  | _, _ => none

/-- JavaScript truthiness of a JSON value. -/
def JsonVal.jsTruthy : JsonVal → Bool
  | JsonVal.null => false
  | JsonVal.bool b => b
  | JsonVal.num n => n != 0
  | JsonVal.str s => s != ""
  | JsonVal.obj _ => true

/-- JavaScript `String(v)` for a JSON value, used by `new Error(v)`. -/
def JsonVal.jsString : JsonVal → String
  | JsonVal.null => "null"
  | JsonVal.bool b => if b then "true" else "false"
  | JsonVal.num n => toString n
  | JsonVal.str s => s
  | JsonVal.obj _ => "[object Object]"

/-- The rejection value of a JavaScript promise as observed from `API.get`:
an `Error` built with an explicit message, the `SyntaxError` raised by
`resp.json()` on an unparseable body, or the `TypeError` raised by reading
`.detail` on `null`. -/
inductive JsError where
  | error (msg : String)
  | parseFailure
  | typeError
deriving DecidableEq

/-- The part of a `fetch` response that `API.get` inspects: the `ok` flag,
the numeric `status`, and the result of parsing the body as JSON
(`none` when the body does not parse). -/
structure FetchResponse where
  ok : Bool
  status : Nat
  jsonBody : Option JsonVal

namespace API

/-- Embedding of `API.get` from src/frontend/js/api.js lines 6-13.
On a non-ok response the body is parsed with a fallback to `\x7b\x7d`
(`.catch(() => (\x7b\x7d))`), and the thrown error message is
`body.detail || "HTTP <status>"`; reading `.detail` on a parsed `null` body
throws a TypeError.  On an ok response, `resp.json()` is returned directly,
so a body that fails to parse rejects with a SyntaxError. -/
def getSem (resp : FetchResponse) : Except JsError JsonVal :=
  if resp.ok then
    match resp.jsonBody with
    | some j => Except.ok j
    | none => Except.error JsError.parseFailure
  else
    match resp.jsonBody.getD (JsonVal.obj []) with
    | JsonVal.null => Except.error JsError.typeError
    | body =>
      match body.getField "detail" with
      | some v =>
        if v.jsTruthy then Except.error (JsError.error v.jsString)
        else Except.error (JsError.error ("HTTP " ++ toString resp.status))
      | none => Except.error (JsError.error ("HTTP " ++ toString resp.status))

end API

/-- The HTTP method of a request issued through the API module. -/
inductive HttpMethod where
  | GET
  | POST
  | DELETE
deriving DecidableEq

/-- A request issued by the frontend API module: its method and path. -/
structure ApiRequest where
  method : HttpMethod
  path : String
deriving DecidableEq

namespace API

/-- Request built by `API.get(path)`: a plain `fetch`, hence method GET. -/
def get (path : String) : ApiRequest := ⟨HttpMethod.GET, "/api" ++ path⟩

/-- Request built by `API.post(path, body)`: `fetch` with `method: POST`.
The JSON payload does not affect method or path and is not modelled. -/
def post (path : String) : ApiRequest := ⟨HttpMethod.POST, "/api" ++ path⟩

/-- Request built by `API.del(path)`: `fetch` with `method: DELETE`. -/
def del (path : String) : ApiRequest := ⟨HttpMethod.DELETE, "/api" ++ path⟩

def seasonEvents (yr : Nat) : ApiRequest := get ("/events/season/" ++ toString yr)

def eventInfo (ek : String) : ApiRequest := get ("/events/" ++ ek ++ "/info")

def eventTeams (ek : String) : ApiRequest := get ("/events/" ++ ek ++ "/teams")

def eventSummary (ek : String) : ApiRequest := get ("/events/" ++ ek ++ "/summary")

def eventSummaryRefresh (ek : String) : ApiRequest :=
  get ("/events/" ++ ek ++ "/summary/refresh-stats")

def eventConnections (ek : String) (allTime : Bool) : ApiRequest :=
  get ("/events/" ++ ek ++ "/summary/connections?all_time=" ++
    (if allTime then "true" else "false"))

def clearCache (ek : String) : ApiRequest := get ("/events/" ++ ek ++ "/clear-cache")

def refreshRankings (ek : String) : ApiRequest :=
  get ("/events/" ++ ek ++ "/refresh-rankings")

def playoffMatches (ek : String) : ApiRequest := get ("/matches/" ++ ek ++ "/playoffs")

def allMatches (ek : String) : ApiRequest := get ("/matches/" ++ ek ++ "/all")

def matchBreakdown (mk : String) : ApiRequest :=
  get ("/matches/match/" ++ mk ++ "/breakdown")

def teamPerf (ek : String) (num : Nat) : ApiRequest :=
  get ("/matches/team-perf/" ++ ek ++ "/" ++ toString num)

def alliances (ek : String) : ApiRequest := get ("/alliances/" ++ ek)

def teamStats (num : Nat) (year : Option Nat) : ApiRequest :=
  get ("/teams/" ++ toString num ++ "/stats" ++
    (match year with
     | some y => "?year=" ++ toString y
     | none => ""))

def headToHead (a b : Nat) (year : Option Nat) (allTime : Bool) : ApiRequest :=
  get ("/teams/head-to-head/" ++ toString a ++ "/" ++ toString b ++
    (match year with
     | some y => "?year=" ++ toString y ++ "&"
     | none => "?") ++
    "all_time=" ++ (if allTime then "true" else "false"))

def compareTeams (ek : String) (teamKeys : List String) : ApiRequest :=
  get ("/events/" ++ ek ++ "/compare?teams=" ++ String.intercalate "," teamKeys)

/-- Embedding of `regionFacts`; `encodeURIComponent` is not modelled, the
argument stands for the already-encoded region name. -/
def regionFacts (nameEnc : String) : ApiRequest :=
  get ("/events/region/" ++ nameEnc ++ "/facts")

def regionsList : ApiRequest := get "/events/regions/list"

def eventHistory (ek : String) : ApiRequest := get ("/events/" ++ ek ++ "/history")

def savedList : ApiRequest := get "/events/saved/list"

def saveEvent (ek : String) : ApiRequest := post ("/events/" ++ ek ++ "/save")

def loadSaved (ek : String) : ApiRequest := get ("/events/" ++ ek ++ "/saved")

def deleteSaved (ek : String) : ApiRequest := del ("/events/" ++ ek ++ "/saved")

end API

/-!
EventCache (src/frontend/js/cache.js).

A record of the `events` object store.  The store uses `keyPath: event_key`,
so a record carries its own key.  The `data` payload is a JavaScript object,
modelled as an association list of field names over an arbitrary value type
`V`; `saved_at` holds the `Date.now()` timestamp passed in explicitly.
-/
structure CacheEntry (V : Type) where
  event_key : String
  saved_at : Nat
  data : List (String × V)
deriving DecidableEq

/-- The contents of the `events` object store. -/
abbrev Store (V : Type) := List (CacheEntry V)

namespace EventCache

variable {V : Type}

/-- IndexedDB `objectStore.get`: the record stored under the key, if any. -/
def storeGet (st : Store V) (k : String) : Option (CacheEntry V) :=
  st.find? (fun e => e.event_key == k)

/-- IndexedDB `objectStore.put` with `keyPath: event_key`: replaces the
record stored under the entry's key, or inserts it. -/
def storePut : Store V → CacheEntry V → Store V
  | [], e => [e]
  | x :: xs, e =>
    if x.event_key == e.event_key then e :: xs else x :: storePut xs e

/-- IndexedDB `objectStore.delete`: removes the record stored under the key;
succeeds whether or not such a record exists. -/
def storeDelete : Store V → String → Store V
  | [], _ => []
  | x :: xs, k =>
    if x.event_key == k then storeDelete xs k else x :: storeDelete xs k

/-- JavaScript field assignment `d[tab] = v` on the `data` object. -/
def setField : List (String × V) → String → V → List (String × V)
  | [], k, v => [(k, v)]
  | (k0, v0) :: rest, k, v =>
    if k0 == k then (k, v) :: rest else (k0, v0) :: setField rest k v

/-- JavaScript field read `d[f]` on the `data` object. -/
def lookupField (d : List (String × V)) (k : String) : Option V :=
  (d.find? (fun p => p.1 == k)).map (fun p => p.2)

/-- Embedding of `EventCache.get` (cache.js lines 24-34).  `failOpen` models
`indexedDB.open` rejecting: that rejection is awaited inside the `try`, so
the `catch` turns it into `null`.  `failReq` models the read request firing
`onerror` after a successful open: the inner promise is returned from the
`try` block without `await`, so its rejection escapes the `catch` and the
caller sees a rejected promise (`Except.error`). -/
def get (failOpen failReq : Bool) (st : Store V) (k : String) :
    Except Unit (Option (CacheEntry V)) :=
  if failOpen then Except.ok none
  else if failReq then Except.error ()
  else Except.ok (storeGet st k)

/-- Embedding of `EventCache.put` (cache.js lines 36-50); `now` is the
`Date.now()` value stored into `saved_at`.  The two failure flags are as in
`get`: an open failure is caught and yields `false`, a transaction error
rejects (the returned promise is not awaited inside the `try`).  The second
component is the store after the call (a failed transaction aborts and
leaves the store unchanged). -/
def put (failOpen failReq : Bool) (st : Store V) (k : String) (now : Nat)
    (d : List (String × V)) : Except Unit Bool × Store V :=
  if failOpen then (Except.ok false, st)
  else if failReq then (Except.error (), st)
  else (Except.ok true, storePut st ⟨k, now, d⟩)

/-- Embedding of `EventCache.patchTab` (cache.js lines 53-61).  The body
awaits `get`, returns `false` on a missing entry, mutates the one field
`tab` of the entry's data, and returns `await put(...)`; both `await`s are
inside the `try`, so every rejection of `get` or `put` is caught and turned
into `false`.  `patchTab` therefore never rejects, whatever the four
underlying failure flags. -/
def patchTab (gFailOpen gFailReq pFailOpen pFailReq : Bool) (st : Store V)
    (k tab : String) (td : V) (now : Nat) : Bool × Store V :=
  match get gFailOpen gFailReq st k with
  | Except.error _ => (false, st)
  | Except.ok none => (false, st)
  | Except.ok (some e) =>
    match put pFailOpen pFailReq st k now (setField e.data tab td) with
    | (Except.error _, st2) => (false, st2)
    | (Except.ok b, st2) => (b, st2)

/-- Embedding of `EventCache.remove` (cache.js lines 63-73). -/
def remove (failOpen failReq : Bool) (st : Store V) (k : String) :
    Except Unit Bool × Store V :=
  if failOpen then (Except.ok false, st)
  else if failReq then (Except.error (), st)
  else (Except.ok true, storeDelete st k)

/-- Embedding of `EventCache.list` (cache.js lines 75-93), keeping the
`event_key` and `saved_at` projections of each summary row (the
`name`/`status`/`year` projections read `data?.info?.name` etc. and are not
inspected by any claim). -/
def list (failOpen failReq : Bool) (st : Store V) :
    Except Unit (List (String × Nat)) :=
  if failOpen then Except.ok []
  else if failReq then Except.error ()
  else Except.ok (st.map (fun e => (e.event_key, e.saved_at)))

/-- Embedding of `EventCache.clear` (cache.js lines 95-105). -/
def clear (failOpen failReq : Bool) (st : Store V) :
    Except Unit Bool × Store V :=
  if failOpen then (Except.ok false, st)
  else if failReq then (Except.error (), st)
  else (Except.ok true, ([] : Store V))

end EventCache

/-!
Playoff bracket rendering (app.js `renderBracketTree`, lines 1484-1654, and
`renderAlliance` in the unnamed app.js part, lines 992-1011).
-/

/-- One side of a match as delivered by the backend. -/
structure AllianceSide where
  team_numbers : List Nat
  score : Int
  alliance_number : Option Nat
deriving DecidableEq

/-- A playoff match as delivered by the backend. -/
structure BracketMatch where
  set_number : Nat
  match_number : Nat
  bracket : String
  winning_alliance : String
  red : AllianceSide
  blue : AllianceSide
deriving DecidableEq

namespace Bracket

/-- The `won` flag of `renderAlliance`:
`const won = m.winning_alliance === color`. -/
def allianceWon (color : String) (m : BracketMatch) : Bool :=
  m.winning_alliance == color

/-- The `redWon` flag of the bracket `slot` helper:
`m.winning_alliance === red`. -/
def slotRedWon (m : BracketMatch) : Bool := m.winning_alliance == "red"

/-- The `blueWon` flag of the bracket `slot` helper:
`m.winning_alliance === blue`. -/
def slotBlueWon (m : BracketMatch) : Bool := m.winning_alliance == "blue"

/-- The update applied to `bySet[s]` by one match of that set:
`if (!bySet[s] || m.match_number > bySet[s].match_number) bySet[s] = m`. -/
def pickLater (acc : Option BracketMatch) (m : BracketMatch) :
    Option BracketMatch :=
  match acc with
  | none => some m
  | some cur => if m.match_number > cur.match_number then some m else some cur

/-- The entry of the `bySet` index for set `s` after the `forEach` loop of
`renderBracketTree`: non-final matches of set `s` folded with `pickLater`. -/
def bySet (ms : List BracketMatch) (s : Nat) : Option BracketMatch :=
  ms.foldl
    (fun acc m =>
      if m.bracket == "final" then acc
      else if m.set_number == s then pickLater acc m
      else acc)
    none

/-- The `finals` list collected by the same loop. -/
def finalsOf (ms : List BracketMatch) : List BracketMatch :=
  ms.filter (fun m => m.bracket == "final")

/-- The `gf` value: `finals.reduce((a, b) => b.match_number > a.match_number ? b : a)`
when `finals` is non-empty, else `null`. -/
def grandFinal (ms : List BracketMatch) : Option BracketMatch :=
  match finalsOf ms with
  | [] => none
  | f :: fs =>
    some (fs.foldl (fun a b => if b.match_number > a.match_number then b else a) f)

/-- Identifier of a bracket slot: one of the numbered sets, or the
Grand Final slot (the string key used in the source). -/
inductive SlotId where
  | set (n : Nat)
  | final
deriving DecidableEq

/-- The match displayed by the `slot` helper:
`const m = setNum === f ? gf : bySet[setNum]`. -/
def slotMatch (ms : List BracketMatch) : SlotId → Option BracketMatch
  | SlotId.set n => bySet ms n
  | SlotId.final => grandFinal ms

/-- A slot renders the TBD placeholder exactly when it has no match. -/
def slotIsTBD (ms : List BracketMatch) (s : SlotId) : Bool :=
  (slotMatch ms s).isNone

end Bracket

/-!
Match navigation (unnamed app.js part, `pbpPrev`/`pbpNext` lines 1302-1316
and `bdPrev`/`bdNext` lines 1447-1461).  The index is a JavaScript number,
modelled as an integer; `len` is `matches.length`, and `hasData` is the
truthiness of the `pbpData`/`bdData` guard in the `next` handlers.
-/

/-- Embedding of `pbpPrev`: decrement only while strictly positive. -/
def pbpPrev (i : Int) : Int := if i > 0 then i - 1 else i

/-- Embedding of `pbpNext`: increment only when data is loaded and the index
is strictly below `matches.length - 1`. -/
def pbpNext (hasData : Bool) (len i : Int) : Int :=
  if hasData = true ∧ i < len - 1 then i + 1 else i

/-- Embedding of `bdPrev` (same shape as `pbpPrev`). -/
def bdPrev (i : Int) : Int := if i > 0 then i - 1 else i

/-- Embedding of `bdNext` (same shape as `pbpNext`). -/
def bdNext (hasData : Bool) (len i : Int) : Int :=
  if hasData = true ∧ i < len - 1 then i + 1 else i

/-!
Rankings table sorting (app.js `sortTeamsData`, lines 1031-1068), `rank`
column.  A team's `rank` field is a number or something else
(`typeof a.rank === number ? a.rank : 999`), modelled as `Option Int`.
-/

/-- The ranking-relevant fields of a team row. -/
structure Team where
  rank : Option Int
  team_number : Int
deriving DecidableEq

/-- Effective rank used by the comparator: the numeric rank, or 999. -/
def effRank (t : Team) : Int :=
  match t.rank with
  | some r => r
  | none => 999

/-- The `rank` branch of the `sortTeamsData` comparator:
compare effective ranks (direction given by `asc`), tiebreak by lowest team
number first. -/
def rankCompare (asc : Bool) (a b : Team) : Int :=
  if effRank a ≠ effRank b then
    (if asc then effRank a - effRank b else effRank b - effRank a)
  else a.team_number - b.team_number

/-- `teamsData.sort(comparator)` for the `rank` column.  The comparator is a
total preorder, and JavaScript `Array.prototype.sort` is stable, so the
result is the stable merge sort by `comparator(a, b) <= 0`. -/
def sortTeamsData (asc : Bool) (teams : List Team) : List Team :=
  teams.mergeSort (fun a b => decide (rankCompare asc a b ≤ 0))

/-- Whether an `API.get` call rejects (its promise settles with an error). -/
def API.rejected : Except JsError JsonVal → Bool
  | Except.ok _ => false
  | Except.error _ => true

/-- Spec-side description of the value `API.get` rejects with on a non-ok
response, following the amended claim: the parsed body's `detail` field when
the body parses as JSON with a truthy `detail`, a TypeError when the body
parses as JSON `null`, and the string `HTTP <status>` otherwise. -/
def API.getRejectionSpec (resp : FetchResponse) : JsError :=
  match resp.jsonBody with
  | none => JsError.error ("HTTP " ++ toString resp.status)
  | some JsonVal.null => JsError.typeError
  | some b =>
    match b.getField "detail" with
    | some v =>
      if v.jsTruthy then JsError.error v.jsString
      else JsError.error ("HTTP " ++ toString resp.status)
    | none => JsError.error ("HTTP " ++ toString resp.status)

/-!
Theorems for the claims.
-/

/-- Claim C1, counterexample: the API module is not GET-only.  `saveEvent`
issues a POST request and `deleteSaved` issues a DELETE request, so not
every request of the API module is an HTTP GET. -/
theorem c1_counterexample :
    (API.saveEvent "2024istanbul").method = HttpMethod.POST ∧
    (API.deleteSaved "2024istanbul").method = HttpMethod.DELETE ∧
    HttpMethod.POST ≠ HttpMethod.GET ∧ HttpMethod.DELETE ≠ HttpMethod.GET := by
  refine ⟨rfl, rfl, ?_, ?_⟩ <;> decide

/-- Claim C1, amended: every operation of the API module issues an HTTP GET
request, with exactly two exceptions — `saveEvent` issues a POST and
`deleteSaved` issues a DELETE. -/
theorem c1_amended (yr num a b : Nat) (ek mk nameEnc : String)
    (teamKeys : List String) (year : Option Nat) (allTime : Bool) :
    (API.seasonEvents yr).method = HttpMethod.GET ∧
    (API.eventInfo ek).method = HttpMethod.GET ∧
    (API.eventTeams ek).method = HttpMethod.GET ∧
    (API.eventSummary ek).method = HttpMethod.GET ∧
    (API.eventSummaryRefresh ek).method = HttpMethod.GET ∧
    (API.eventConnections ek allTime).method = HttpMethod.GET ∧
    (API.clearCache ek).method = HttpMethod.GET ∧
    (API.refreshRankings ek).method = HttpMethod.GET ∧
    (API.playoffMatches ek).method = HttpMethod.GET ∧
    (API.allMatches ek).method = HttpMethod.GET ∧
    (API.matchBreakdown mk).method = HttpMethod.GET ∧
    (API.teamPerf ek num).method = HttpMethod.GET ∧
    (API.alliances ek).method = HttpMethod.GET ∧
    (API.teamStats num year).method = HttpMethod.GET ∧
    (API.headToHead a b year allTime).method = HttpMethod.GET ∧
    (API.compareTeams ek teamKeys).method = HttpMethod.GET ∧
    (API.regionFacts nameEnc).method = HttpMethod.GET ∧
    API.regionsList.method = HttpMethod.GET ∧
    (API.eventHistory ek).method = HttpMethod.GET ∧
    API.savedList.method = HttpMethod.GET ∧
    (API.loadSaved ek).method = HttpMethod.GET ∧
    (API.saveEvent ek).method = HttpMethod.POST ∧
    (API.deleteSaved ek).method = HttpMethod.DELETE :=
  ⟨rfl, rfl, rfl, rfl, rfl, rfl, rfl, rfl, rfl, rfl, rfl, rfl, rfl, rfl, rfl,
   rfl, rfl, rfl, rfl, rfl, rfl, rfl, rfl⟩

/-- Claim C4: the playoff renderers never compute a winner from the scores.
An alliance is marked as the winner exactly when the match's
`winning_alliance` field equals that alliance's color, and the mark depends
only on the `winning_alliance` field — never on the scores. -/
theorem c4_winner_flags (m : BracketMatch) (color : String) :
    (Bracket.allianceWon color m = true ↔ m.winning_alliance = color) ∧
    (Bracket.slotRedWon m = true ↔ m.winning_alliance = "red") ∧
    (Bracket.slotBlueWon m = true ↔ m.winning_alliance = "blue") ∧
    (∀ m2 : BracketMatch, m2.winning_alliance = m.winning_alliance →
      Bracket.allianceWon color m2 = Bracket.allianceWon color m) := by
  refine ⟨?_, ?_, ?_, ?_⟩
  · simp [Bracket.allianceWon]
  · simp [Bracket.slotRedWon]
  · simp [Bracket.slotBlueWon]
  · intro m2 h2
    simp [Bracket.allianceWon, h2]

/-- A concrete match in which the blue alliance outscores the red one while
`winning_alliance` names red (e.g. a red win by penalty card). -/
def mC4 : BracketMatch :=
  ⟨1, 1, "upper", "red", ⟨[111, 222, 333], 10, some 1⟩, ⟨[444, 555, 666], 50, some 8⟩⟩

/-- Witness for claim C4: on `mC4`, where blue has the higher score, red is
still the alliance marked as winner, because `winning_alliance` says so. -/
theorem c4_winner_flags_witness :
    mC4.blue.score > mC4.red.score ∧
    Bracket.allianceWon "red" mC4 = true ∧
    Bracket.allianceWon "blue" mC4 = false ∧
    Bracket.slotRedWon mC4 = true ∧
    Bracket.slotBlueWon mC4 = false :=
  ⟨by decide, (c4_winner_flags mC4 "red").1.mpr rfl, by decide, by decide, by decide⟩

/-- Claim C9: with a non-empty match list loaded, the play-by-play and
breakdown navigation handlers keep the index inside
`0 <= index <= matches.length - 1`; `prev` at index 0 and `next` at the last
index leave the index unchanged. -/
theorem c9_nav_bounds (len i : Int) (hlen : 1 ≤ len) (h0 : 0 ≤ i)
    (h1 : i ≤ len - 1) :
    (0 ≤ pbpPrev i ∧ pbpPrev i ≤ len - 1) ∧
    (0 ≤ pbpNext true len i ∧ pbpNext true len i ≤ len - 1) ∧
    (0 ≤ bdPrev i ∧ bdPrev i ≤ len - 1) ∧
    (0 ≤ bdNext true len i ∧ bdNext true len i ≤ len - 1) ∧
    pbpPrev 0 = 0 ∧ pbpNext true len (len - 1) = len - 1 ∧
    bdPrev 0 = 0 ∧ bdNext true len (len - 1) = len - 1 := by
  unfold pbpPrev pbpNext bdPrev bdNext
  split_ifs <;> simp_all <;> omega

/-- Witness for claim C9 at a three-match list with the index in the middle. -/
theorem c9_nav_bounds_witness :
    (1 : Int) ≤ 3 ∧ (0 : Int) ≤ 1 ∧ (1 : Int) ≤ 3 - 1 ∧
    (0 ≤ pbpPrev 1 ∧ pbpPrev 1 ≤ 3 - 1) ∧
    (0 ≤ pbpNext true 3 1 ∧ pbpNext true 3 1 ≤ 3 - 1) :=
  ⟨by decide, by decide, by decide,
   (c9_nav_bounds 3 1 (by decide) (by decide) (by decide)).1,
   (c9_nav_bounds 3 1 (by decide) (by decide) (by decide)).2.1⟩

/-- Claim C5, counterexample: `API.get` does not reject only on non-ok
responses.  On an ok response whose body fails to parse as JSON,
`return resp.json()` returns a rejecting promise, so `API.get` rejects even
though the response is ok. -/
theorem c5_counterexample :
    (⟨true, 200, none⟩ : FetchResponse).ok = true ∧
    API.getSem ⟨true, 200, none⟩ = Except.error JsError.parseFailure ∧
    API.rejected (API.getSem ⟨true, 200, none⟩) = true :=
  ⟨rfl, rfl, rfl⟩

/-- Claim C5, amended: `API.get` rejects exactly when the response is not ok
or its body fails to parse as JSON.  When the response is ok and the body
parses, it resolves with the parsed body.  When the response is not ok, the
rejection value is the parsed body's truthy `detail` field if there is one,
a TypeError if the body parses as JSON `null`, and an Error with message
`HTTP <status>` otherwise. -/
theorem c5_amended (resp : FetchResponse) :
    (API.rejected (API.getSem resp) = true ↔
      (resp.ok = false ∨ resp.jsonBody = none)) ∧
    (∀ j, resp.ok = true → resp.jsonBody = some j →
      API.getSem resp = Except.ok j) ∧
    (resp.ok = false →
      API.getSem resp = Except.error (API.getRejectionSpec resp)) := by
  obtain ⟨ok, status, body⟩ := resp
  have h2 : ∀ j, ok = true → body = some j →
      API.getSem ⟨ok, status, body⟩ = Except.ok j := by
    intro j hok hbody
    subst hok
    subst hbody
    rfl
  have h3 : ok = false →
      API.getSem ⟨ok, status, body⟩ =
        Except.error (API.getRejectionSpec ⟨ok, status, body⟩) := by
    intro hok
    subst hok
    cases body with
    | none => rfl
    | some j =>
      cases j with
      | obj fs =>
        cases hf : (JsonVal.obj fs).getField "detail" <;>
          simp [API.getSem, API.getRejectionSpec, hf] <;> split <;> rfl
      | null => rfl
      | bool b => rfl
      | num n => rfl
      | str s => rfl
  refine ⟨?_, h2, h3⟩
  cases ok
  · rw [h3 rfl]
    simp [API.rejected]
  · cases body with
    | none => simp [API.getSem, API.rejected]
    | some j =>
      rw [h2 j rfl rfl]
      simp [API.rejected]

/-- Witness for claim C5 (amended) at a 404 response whose body carries a
truthy `detail` field. -/
theorem c5_amended_witness :
    (⟨false, 404,
        some (JsonVal.obj [("detail", JsonVal.str "event not found")])⟩ :
      FetchResponse).ok = false ∧
    API.getSem
        ⟨false, 404,
          some (JsonVal.obj [("detail", JsonVal.str "event not found")])⟩ =
      Except.error (JsError.error "event not found") := by
  have h :=
    (c5_amended
        ⟨false, 404,
          some (JsonVal.obj [("detail", JsonVal.str "event not found")])⟩).2.2
      rfl
  exact ⟨rfl, h⟩

/-- Claim C8: evaluation of the cache operations at the failing inputs.
When `indexedDB.open` succeeds but the subsequent request or transaction
errors (second failure flag), `get`, `put`, `remove`, `list` and `clear`
reject instead of returning their fallback value, because the promise built
inside the `try` block is returned without `await`, so the `catch` never
sees its rejection.  `patchTab` alone awaits every inner promise and is
rejection-free: under any combination of failures, and on a key with no
cached entry, it returns `false` and leaves the store unchanged. -/
theorem c8_failure_evaluation :
    EventCache.get false true ([] : Store Nat) "2024istanbul" =
      Except.error () ∧
    (EventCache.put false true ([] : Store Nat) "2024istanbul" 0 []).1 =
      Except.error () ∧
    (EventCache.remove false true ([] : Store Nat) "2024istanbul").1 =
      Except.error () ∧
    EventCache.list false true ([] : Store Nat) = Except.error () ∧
    (EventCache.clear false true ([] : Store Nat)).1 = Except.error () ∧
    EventCache.patchTab true true true true ([] : Store Nat)
        "2024istanbul" "rankings" 0 0 = (false, []) ∧
    EventCache.patchTab false true false true ([] : Store Nat)
        "2024istanbul" "rankings" 0 0 = (false, []) ∧
    EventCache.patchTab false false false false
        ([⟨"2024other", 1, []⟩] : Store Nat) "2024istanbul" "rankings" 7 5 =
      (false, [⟨"2024other", 1, []⟩]) :=
  ⟨rfl, rfl, rfl, rfl, rfl, rfl, rfl, rfl⟩

/-!
Store-level lemmas for the cache claims.
-/

theorem storeGet_cons {V : Type} (x : CacheEntry V) (xs : Store V)
    (k : String) :
    EventCache.storeGet (x :: xs) k =
      if x.event_key = k then some x else EventCache.storeGet xs k := by
  by_cases h : x.event_key = k
  · unfold EventCache.storeGet
    rw [List.find?_cons_of_pos _ (by simpa using h), if_pos h]
  · unfold EventCache.storeGet
    rw [List.find?_cons_of_neg _ (by simpa using h), if_neg h]

theorem lookupField_cons {V : Type} (p : String × V) (rest : List (String × V))
    (f : String) :
    EventCache.lookupField (p :: rest) f =
      if p.1 = f then some p.2 else EventCache.lookupField rest f := by
  by_cases h : p.1 = f
  · unfold EventCache.lookupField
    rw [List.find?_cons_of_pos _ (by simpa using h), if_pos h]
    rfl
  · unfold EventCache.lookupField
    rw [List.find?_cons_of_neg _ (by simpa using h), if_neg h]

theorem storeGet_storePut_self {V : Type} (st : Store V) (e : CacheEntry V) :
    EventCache.storeGet (EventCache.storePut st e) e.event_key = some e := by
  induction st with
  | nil => simp [EventCache.storePut, storeGet_cons]
  | cons x xs ih =>
    by_cases h : x.event_key = e.event_key
    · simp [EventCache.storePut, h, storeGet_cons]
    · simp [EventCache.storePut, h, storeGet_cons, ih]

theorem storeGet_storeDelete_self {V : Type} (st : Store V) (k : String) :
    EventCache.storeGet (EventCache.storeDelete st k) k = none := by
  induction st with
  | nil => rfl
  | cons x xs ih =>
    by_cases h : x.event_key = k
    · simpa [EventCache.storeDelete, h] using ih
    · simp [EventCache.storeDelete, h, storeGet_cons, ih]

theorem storeGet_storeDelete_other {V : Type} (st : Store V) (k k2 : String)
    (h : k2 ≠ k) :
    EventCache.storeGet (EventCache.storeDelete st k) k2 =
      EventCache.storeGet st k2 := by
  induction st with
  | nil => rfl
  | cons x xs ih =>
    by_cases hx : x.event_key = k
    · have hx2 : ¬x.event_key = k2 := by
        rw [hx]
        exact fun hk => h hk.symm
      simp [EventCache.storeDelete, hx, storeGet_cons, hx2, Ne.symm h, ih]
    · simp [EventCache.storeDelete, hx, storeGet_cons, ih]

theorem lookupField_setField_self {V : Type} (d : List (String × V))
    (k : String) (v : V) :
    EventCache.lookupField (EventCache.setField d k v) k = some v := by
  induction d with
  | nil => simp [EventCache.setField, lookupField_cons]
  | cons p rest ih =>
    obtain ⟨k0, v0⟩ := p
    by_cases h : k0 = k
    · simp [EventCache.setField, h, lookupField_cons]
    · simp [EventCache.setField, h, lookupField_cons, ih]

theorem lookupField_setField_other {V : Type} (d : List (String × V))
    (k f : String) (v : V) (h : f ≠ k) :
    EventCache.lookupField (EventCache.setField d k v) f =
      EventCache.lookupField d f := by
  have hkf : ¬k = f := fun hk => h hk.symm
  induction d with
  | nil => simp [EventCache.setField, lookupField_cons, hkf, EventCache.lookupField]
  | cons p rest ih =>
    obtain ⟨k0, v0⟩ := p
    by_cases hp : k0 = k
    · have hk0f : ¬k0 = f := by
        rw [hp]
        exact hkf
      simp [EventCache.setField, hp, lookupField_cons, hkf, hk0f]
    · simp [EventCache.setField, hp, lookupField_cons, ih]

/-- Claim C2: after a successful `EventCache.put(k, d)`, `EventCache.get(k)`
returns a record whose `event_key` field is `k` and whose `data` field is
`d` (with `saved_at` set to the `Date.now()` value of the put). -/
theorem c2_put_then_get {V : Type} (fo fr : Bool) (st : Store V) (k : String)
    (now : Nat) (d : List (String × V))
    (h : (EventCache.put fo fr st k now d).1 = Except.ok true) :
    EventCache.get false false (EventCache.put fo fr st k now d).2 k =
      Except.ok (some ⟨k, now, d⟩) := by
  cases fo
  · cases fr
    · simp only [EventCache.put, if_false, Bool.false_eq_true]
      simp only [EventCache.get, if_false, Bool.false_eq_true]
      exact congrArg Except.ok (storeGet_storePut_self st ⟨k, now, d⟩)
    · simp [EventCache.put] at h
  · simp [EventCache.put] at h

/-- Witness for claim C2: a put into a one-entry store, read back. -/
theorem c2_put_then_get_witness :
    (EventCache.put false false ([⟨"2024other", 3, [("info", 7)]⟩] : Store Nat)
        "2024istanbul" 42 [("summary", 5)]).1 = Except.ok true ∧
    EventCache.get false false
        (EventCache.put false false
          ([⟨"2024other", 3, [("info", 7)]⟩] : Store Nat)
          "2024istanbul" 42 [("summary", 5)]).2 "2024istanbul" =
      Except.ok (some ⟨"2024istanbul", 42, [("summary", 5)]⟩) :=
  ⟨rfl,
   c2_put_then_get false false ([⟨"2024other", 3, [("info", 7)]⟩] : Store Nat)
     "2024istanbul" 42 [("summary", 5)] rfl⟩

/-- Claim C3: `patchTab(k, tab, tabData)` on a cached entry succeeds,
replaces only the `tab` field of the entry's data (refreshing `saved_at` to
the patch time), leaves every other data field unchanged, and a subsequent
`get(k)` returns the patched data with `tab` mapped to `tabData`. -/
theorem c3_patchTab_frame {V : Type} (st : Store V) (k tab : String) (td : V)
    (now : Nat) (e : CacheEntry V)
    (h : EventCache.storeGet st k = some e) :
    (EventCache.patchTab false false false false st k tab td now).1 = true ∧
    EventCache.get false false
        (EventCache.patchTab false false false false st k tab td now).2 k =
      Except.ok (some ⟨k, now, EventCache.setField e.data tab td⟩) ∧
    EventCache.lookupField (EventCache.setField e.data tab td) tab =
      some td ∧
    ∀ f, f ≠ tab →
      EventCache.lookupField (EventCache.setField e.data tab td) f =
        EventCache.lookupField e.data f := by
  have hp : EventCache.patchTab false false false false st k tab td now =
      (true,
        EventCache.storePut st ⟨k, now, EventCache.setField e.data tab td⟩) := by
    simp [EventCache.patchTab, EventCache.get, EventCache.put, h]
  refine ⟨by rw [hp], ?_, lookupField_setField_self e.data tab td,
    fun f hf => lookupField_setField_other e.data tab f td hf⟩
  rw [hp]
  simp only [EventCache.get, if_false, Bool.false_eq_true]
  exact congrArg Except.ok
    (storeGet_storePut_self st ⟨k, now, EventCache.setField e.data tab td⟩)

/-- Witness for claim C3: patching the `rankings` field of a two-field
cached entry leaves its `info` field unchanged. -/
theorem c3_patchTab_frame_witness :
    EventCache.storeGet
        ([⟨"2024istanbul", 1, [("info", 10), ("rankings", 20)]⟩] : Store Nat)
        "2024istanbul" =
      some ⟨"2024istanbul", 1, [("info", 10), ("rankings", 20)]⟩ ∧
    (EventCache.patchTab false false false false
        ([⟨"2024istanbul", 1, [("info", 10), ("rankings", 20)]⟩] : Store Nat)
        "2024istanbul" "rankings" 99 50).1 = true ∧
    EventCache.get false false
        (EventCache.patchTab false false false false
          ([⟨"2024istanbul", 1, [("info", 10), ("rankings", 20)]⟩] : Store Nat)
          "2024istanbul" "rankings" 99 50).2 "2024istanbul" =
      Except.ok (some ⟨"2024istanbul", 50, [("info", 10), ("rankings", 99)]⟩) := by
  have h :=
    c3_patchTab_frame
      ([⟨"2024istanbul", 1, [("info", 10), ("rankings", 20)]⟩] : Store Nat)
      "2024istanbul" "rankings" 99 50
      ⟨"2024istanbul", 1, [("info", 10), ("rankings", 20)]⟩ rfl
  exact ⟨rfl, h.1, h.2.1⟩

/-- Claim C7: `remove(k)` succeeds (also when `k` is not cached), after it
`get(k)` returns `null`, and every other key reads unchanged. -/
theorem c7_remove_then_get {V : Type} (st : Store V) (k k2 : String)
    (h : k2 ≠ k) :
    (EventCache.remove false false st k).1 = Except.ok true ∧
    EventCache.get false false (EventCache.remove false false st k).2 k =
      Except.ok none ∧
    EventCache.get false false (EventCache.remove false false st k).2 k2 =
      EventCache.get false false st k2 := by
  refine ⟨rfl, ?_, ?_⟩
  · simp only [EventCache.remove, EventCache.get, if_false, Bool.false_eq_true]
    exact congrArg Except.ok (storeGet_storeDelete_self st k)
  · simp only [EventCache.remove, EventCache.get, if_false, Bool.false_eq_true]
    exact congrArg Except.ok (storeGet_storeDelete_other st k k2 h)

/-- Witness for claim C7: removing a key that is not in a one-entry store
succeeds, reads back as `null`, and leaves the other entry readable. -/
theorem c7_remove_then_get_witness :
    ("2024istanbul" : String) ≠ "2024absent" ∧
    (EventCache.remove false false
        ([⟨"2024istanbul", 1, [("info", 4)]⟩] : Store Nat) "2024absent").1 =
      Except.ok true ∧
    EventCache.get false false
        (EventCache.remove false false
          ([⟨"2024istanbul", 1, [("info", 4)]⟩] : Store Nat) "2024absent").2
        "2024absent" =
      Except.ok none ∧
    EventCache.get false false
        (EventCache.remove false false
          ([⟨"2024istanbul", 1, [("info", 4)]⟩] : Store Nat) "2024absent").2
        "2024istanbul" =
      EventCache.get false false
        ([⟨"2024istanbul", 1, [("info", 4)]⟩] : Store Nat) "2024istanbul" := by
  have h :=
    c7_remove_then_get ([⟨"2024istanbul", 1, [("info", 4)]⟩] : Store Nat)
      "2024absent" "2024istanbul" (by decide)
  exact ⟨by decide, h.1, h.2.1, h.2.2⟩

/-!
Lemmas for the bracket index (claim C6).
-/

theorem pickLater_spec (acc : Option BracketMatch) (m : BracketMatch) :
    ∃ r, Bracket.pickLater acc m = some r ∧ (r = m ∨ acc = some r) ∧
      m.match_number ≤ r.match_number ∧
      ∀ a, acc = some a → a.match_number ≤ r.match_number := by
  cases acc with
  | none =>
    exact ⟨m, rfl, Or.inl rfl, Nat.le_refl _, by simp⟩
  | some cur =>
    by_cases h : m.match_number > cur.match_number
    · refine ⟨m, by simp [Bracket.pickLater, h], Or.inl rfl, Nat.le_refl _, ?_⟩
      intro a ha
      cases ha
      exact Nat.le_of_lt h
    · refine ⟨cur, by simp [Bracket.pickLater, h], Or.inr rfl,
        Nat.le_of_not_lt h, ?_⟩
      intro a ha
      cases ha
      exact Nat.le_refl _

theorem foldl_pickLater_eq_none (l : List BracketMatch) :
    ∀ acc, l.foldl Bracket.pickLater acc = none ↔ acc = none ∧ l = [] := by
  induction l with
  | nil => simp
  | cons m rest ih =>
    intro acc
    obtain ⟨r, hr, -, -, -⟩ := pickLater_spec acc m
    simp [List.foldl_cons, ih, hr]

theorem foldl_pickLater_spec (l : List BracketMatch) :
    ∀ acc m0, l.foldl Bracket.pickLater acc = some m0 →
      (acc = some m0 ∨ m0 ∈ l) ∧
      (∀ m ∈ l, m.match_number ≤ m0.match_number) ∧
      (∀ a, acc = some a → a.match_number ≤ m0.match_number) := by
  induction l with
  | nil =>
    intro acc m0 h
    simp only [List.foldl_nil] at h
    refine ⟨Or.inl h, by simp, ?_⟩
    intro a ha
    rw [h] at ha
    cases ha
    exact Nat.le_refl _
  | cons m rest ih =>
    intro acc m0 h
    obtain ⟨r, hr, hro, hmr, hacc⟩ := pickLater_spec acc m
    rw [List.foldl_cons, hr] at h
    obtain ⟨hmem, hmax, hbd⟩ := ih (some r) m0 h
    have hrm0 : r.match_number ≤ m0.match_number := hbd r rfl
    refine ⟨?_, ?_, ?_⟩
    · rcases hmem with hm | hm
      · rcases hro with hrm | hra
        · right
          rw [hrm] at hm
          cases hm
          exact List.mem_cons_self m rest
        · left
          rw [hra]
          exact hm
      · right
        exact List.mem_cons_of_mem m hm
    · intro x hx
      rcases List.mem_cons.mp hx with hxm | hxr
      · rw [hxm]
        exact Nat.le_trans hmr hrm0
      · exact hmax x hxr
    · intro a ha
      exact Nat.le_trans (hacc a ha) hrm0

/-- The selector of the `bySet` fold, as a filtered fold. -/
theorem bySet_eq_filter_fold (ms : List BracketMatch) (s : Nat) :
    Bracket.bySet ms s =
      (ms.filter
        (fun m => !(m.bracket == "final") && (m.set_number == s))).foldl
        Bracket.pickLater none := by
  suffices h : ∀ acc,
      ms.foldl
        (fun acc m =>
          if m.bracket == "final" then acc
          else if m.set_number == s then Bracket.pickLater acc m
          else acc) acc =
        (ms.filter
          (fun m => !(m.bracket == "final") && (m.set_number == s))).foldl
          Bracket.pickLater acc from h none
  induction ms with
  | nil =>
    intro acc
    rfl
  | cons m rest ih =>
    intro acc
    by_cases hf : m.bracket = "final"
    · simp only [List.foldl_cons]
      rw [if_pos (by simpa using hf),
        List.filter_cons_of_neg (by simp [hf])]
      exact ih acc
    · by_cases hs : m.set_number = s
      · simp only [List.foldl_cons]
        rw [if_neg (by simpa using hf), if_pos (by simpa using hs),
          List.filter_cons_of_pos (by simp [hf, hs]), List.foldl_cons]
        exact ih (Bracket.pickLater acc m)
      · simp only [List.foldl_cons]
        rw [if_neg (by simpa using hf), if_neg (by simpa using hs),
          List.filter_cons_of_neg (by simp [hf, hs])]
        exact ih acc

theorem foldl_latest_spec (fs : List BracketMatch) :
    ∀ f : BracketMatch,
      (fs.foldl (fun a b => if b.match_number > a.match_number then b else a) f
          = f ∨
        fs.foldl (fun a b => if b.match_number > a.match_number then b else a) f
          ∈ fs) ∧
      f.match_number ≤
        (fs.foldl (fun a b => if b.match_number > a.match_number then b else a)
            f).match_number ∧
      ∀ m ∈ fs, m.match_number ≤
        (fs.foldl (fun a b => if b.match_number > a.match_number then b else a)
            f).match_number := by
  induction fs with
  | nil =>
    intro f
    exact ⟨Or.inl rfl, Nat.le_refl _, by simp⟩
  | cons m rest ih =>
    intro f
    obtain ⟨hmem, hbd, hmax⟩ := ih (if m.match_number > f.match_number then m else f)
    have hstep_f : f.match_number ≤
        (if m.match_number > f.match_number then m else f).match_number := by
      split
      · omega
      · exact Nat.le_refl _
    have hstep_m : m.match_number ≤
        (if m.match_number > f.match_number then m else f).match_number := by
      split
      · exact Nat.le_refl _
      · omega
    refine ⟨?_, ?_, ?_⟩
    · rcases hmem with hm | hm
      · rw [List.foldl_cons, hm]
        split
        · right
          exact List.mem_cons_self m rest
        · left
          rfl
      · right
        rw [List.foldl_cons]
        exact List.mem_cons_of_mem m hm
    · rw [List.foldl_cons]
      exact Nat.le_trans hstep_f hbd
    · intro x hx
      rw [List.foldl_cons]
      rcases List.mem_cons.mp hx with hxm | hxr
      · rw [hxm]
        exact Nat.le_trans hstep_m hbd
      · exact hmax x hxr

/-- Claim C6: the bracket renderer is table-driven over a fixed topology.
Each numbered set slot shows a non-final match of that set with the greatest
`match_number` (the latest replay), the Grand Final slot shows a finals
match with the greatest `match_number`, and a slot whose set has no match
shows the TBD placeholder. -/
theorem c6_bracket_slots (ms : List BracketMatch) (n : Nat) :
    (∀ m0, Bracket.slotMatch ms (Bracket.SlotId.set n) = some m0 →
      m0 ∈ ms ∧ m0.bracket ≠ "final" ∧ m0.set_number = n ∧
      ∀ m ∈ ms, m.bracket ≠ "final" → m.set_number = n →
        m.match_number ≤ m0.match_number) ∧
    (Bracket.slotIsTBD ms (Bracket.SlotId.set n) = true ↔
      ∀ m ∈ ms, m.bracket = "final" ∨ m.set_number ≠ n) ∧
    (∀ g, Bracket.slotMatch ms Bracket.SlotId.final = some g →
      g ∈ ms ∧ g.bracket = "final" ∧
      ∀ m ∈ ms, m.bracket = "final" → m.match_number ≤ g.match_number) ∧
    (Bracket.slotIsTBD ms Bracket.SlotId.final = true ↔
      ∀ m ∈ ms, m.bracket ≠ "final") := by
  have hslot : Bracket.slotMatch ms (Bracket.SlotId.set n) =
      (ms.filter
        (fun m => !(m.bracket == "final") && (m.set_number == n))).foldl
        Bracket.pickLater none := bySet_eq_filter_fold ms n
  refine ⟨?_, ?_, ?_, ?_⟩
  · intro m0 h0
    rw [hslot] at h0
    obtain ⟨hmem, hmax, -⟩ := foldl_pickLater_spec _ none m0 h0
    have hm0 : m0 ∈ ms.filter
        (fun m => !(m.bracket == "final") && (m.set_number == n)) := by
      rcases hmem with hm | hm
      · cases hm
      · exact hm
    obtain ⟨hm0ms, hm0p⟩ := List.mem_filter.mp hm0
    simp only [Bool.and_eq_true, Bool.not_eq_true', beq_eq_false_iff_ne,
      beq_iff_eq] at hm0p
    refine ⟨hm0ms, hm0p.1, hm0p.2, ?_⟩
    intro m hm hbr hsn
    refine hmax m (List.mem_filter.mpr ⟨hm, ?_⟩)
    simp [hbr, hsn]
  · rw [Bracket.slotIsTBD, Option.isNone_iff_eq_none, hslot,
      foldl_pickLater_eq_none]
    simp only [true_and, List.filter_eq_nil_iff, Bool.and_eq_true,
      Bool.not_eq_true', beq_eq_false_iff_ne, beq_iff_eq, not_and]
    constructor
    · intro h m hm
      by_cases hbr : m.bracket = "final"
      · exact Or.inl hbr
      · exact Or.inr (h m hm hbr)
    · intro h m hm hbr
      rcases h m hm with hfin | hsn
      · exact absurd hfin hbr
      · exact hsn
  · intro g hg
    rw [Bracket.slotMatch, Bracket.grandFinal] at hg
    rcases hfin : Bracket.finalsOf ms with _ | ⟨f, fs⟩
    · rw [hfin] at hg
      cases hg
    · rw [hfin] at hg
      obtain ⟨hmem, hbd, hmax⟩ := foldl_latest_spec fs f
      have hgval : fs.foldl
          (fun a b => if b.match_number > a.match_number then b else a) f = g := by
        injection hg
      have hgfin : g ∈ Bracket.finalsOf ms := by
        rw [hfin]
        rcases hmem with hm | hm
        · rw [hgval] at hm
          rw [hm]
          exact List.mem_cons_self f fs
        · rw [hgval] at hm
          exact List.mem_cons_of_mem f hm
      obtain ⟨hgms, hgbr⟩ := List.mem_filter.mp hgfin
      refine ⟨hgms, by simpa using hgbr, ?_⟩
      intro m hm hbr
      have hmfin : m ∈ Bracket.finalsOf ms :=
        List.mem_filter.mpr ⟨hm, by simp [hbr]⟩
      rw [hfin] at hmfin
      rcases List.mem_cons.mp hmfin with hmf | hmr
      · rw [hmf, ← hgval]
        exact hbd
      · rw [← hgval]
        exact hmax m hmr
  · rw [Bracket.slotIsTBD, Option.isNone_iff_eq_none]
    constructor
    · intro h m hm hbr
      rw [Bracket.slotMatch, Bracket.grandFinal] at h
      rcases hfin : Bracket.finalsOf ms with _ | ⟨f, fs⟩
      · have : m ∈ Bracket.finalsOf ms :=
          List.mem_filter.mpr ⟨hm, by simp [hbr]⟩
        rw [hfin] at this
        cases this
      · rw [hfin] at h
        cases h
    · intro h
      rw [Bracket.slotMatch, Bracket.grandFinal]
      have hfin : Bracket.finalsOf ms = [] := by
        rw [Bracket.finalsOf, List.filter_eq_nil_iff]
        intro m hm
        simp [h m hm]
      rw [hfin]

/-- Matches used by the bracket witness: set 1 has a replay, set 2 a single
match, the finals have two matches, and set 3 is empty. -/
def msC6 : List BracketMatch :=
  [⟨1, 1, "upper", "red", ⟨[1, 2, 3], 40, some 1⟩, ⟨[4, 5, 6], 40, some 8⟩⟩,
   ⟨1, 2, "upper", "blue", ⟨[1, 2, 3], 30, some 1⟩, ⟨[4, 5, 6], 55, some 8⟩⟩,
   ⟨2, 1, "upper", "red", ⟨[7, 8, 9], 62, some 4⟩, ⟨[10, 11, 12], 12, some 5⟩⟩,
   ⟨1, 1, "final", "red", ⟨[1, 2, 3], 70, some 1⟩, ⟨[7, 8, 9], 50, some 4⟩⟩,
   ⟨1, 2, "final", "blue", ⟨[1, 2, 3], 20, some 1⟩, ⟨[7, 8, 9], 90, some 4⟩⟩]

/-- Witness for claim C6 on `msC6`: the set-1 slot shows the replay (match
number 2), the set-3 slot is TBD, and the Grand Final slot shows the second
finals match. -/
theorem c6_bracket_slots_witness :
    Bracket.slotMatch msC6 (Bracket.SlotId.set 1) = some (msC6.get ⟨1, by decide⟩) ∧
    (msC6.get ⟨1, by decide⟩) ∈ msC6 ∧
    (msC6.get ⟨1, by decide⟩).set_number = 1 ∧
    Bracket.slotIsTBD msC6 (Bracket.SlotId.set 3) = true ∧
    Bracket.slotMatch msC6 Bracket.SlotId.final = some (msC6.get ⟨4, by decide⟩) ∧
    (msC6.get ⟨4, by decide⟩).bracket = "final" := by
  have h1 := (c6_bracket_slots msC6 1).1 (msC6.get ⟨1, by decide⟩) rfl
  have h3 := (c6_bracket_slots msC6 3).2.1.mpr (by decide)
  have hf := (c6_bracket_slots msC6 1).2.2.1 (msC6.get ⟨4, by decide⟩) rfl
  exact ⟨rfl, h1.1, h1.2.2.1, h3, rfl, hf.2.1⟩

/-!
Lemmas for the rankings sort (claim C10).
-/

theorem rankCompare_le_iff (a b : Team) :
    rankCompare true a b ≤ 0 ↔
      (effRank a < effRank b ∨
        (effRank a = effRank b ∧ a.team_number ≤ b.team_number)) := by
  unfold rankCompare
  by_cases h : effRank a = effRank b
  · rw [if_neg (fun hne => hne h)]
    omega
  · rw [if_pos h, if_pos rfl]
    omega

theorem rankLe_trans (a b c : Team) :
    (fun x y => decide (rankCompare true x y ≤ 0)) a b →
      (fun x y => decide (rankCompare true x y ≤ 0)) b c →
        (fun x y => decide (rankCompare true x y ≤ 0)) a c := by
  simp only [decide_eq_true_eq, rankCompare_le_iff]
  omega

theorem rankLe_total (a b : Team) :
    (fun x y => decide (rankCompare true x y ≤ 0)) a b ||
      (fun x y => decide (rankCompare true x y ≤ 0)) b a := by
  simp only [Bool.or_eq_true, decide_eq_true_eq, rankCompare_le_iff]
  omega

/-- Claim C10: when the rankings table is sorted ascending by rank, a team
whose `rank` field is not a number sorts as rank 999; when every numeric
rank is below 999, every unranked team is placed after every ranked team,
and teams of equal effective rank are ordered by lowest team number first. -/
theorem c10_rank_sort (teams : List Team)
    (h : ∀ t ∈ teams, ∀ r, t.rank = some r → r < 999) :
    (sortTeamsData true teams).Pairwise (fun a b =>
      (a.rank = none → b.rank = none) ∧
      (effRank a = effRank b → a.team_number ≤ b.team_number)) := by
  have hs := List.sorted_mergeSort rankLe_trans rankLe_total teams
  refine List.Pairwise.imp_of_mem ?_ hs
  intro a b ha hb hab
  have ha' : a ∈ teams := List.mem_mergeSort.mp ha
  have hb' : b ∈ teams := List.mem_mergeSort.mp hb
  have hab' : effRank a < effRank b ∨
      (effRank a = effRank b ∧ a.team_number ≤ b.team_number) := by
    simpa [rankCompare_le_iff] using hab
  constructor
  · intro hanone
    have ha999 : effRank a = 999 := by simp [effRank, hanone]
    cases hbr : b.rank with
    | none => rfl
    | some r =>
      have hr : r < 999 := h b hb' r hbr
      have hb999 : effRank b = r := by simp [effRank, hbr]
      omega
  · intro heq
    rcases hab' with hlt | ⟨-, hle⟩
    · omega
    · exact hle

/-- Teams used by the sorting witness: one unranked team, two teams tied at
rank 2 with team numbers out of order, and a rank-1 team. -/
def teamsC10 : List Team :=
  [⟨none, 100⟩, ⟨some 2, 9000⟩, ⟨some 1, 300⟩, ⟨some 2, 50⟩]

/-- Witness for claim C10 on `teamsC10`. -/
theorem c10_rank_sort_witness :
    (∀ t ∈ teamsC10, ∀ r, t.rank = some r → r < 999) ∧
    (sortTeamsData true teamsC10).Pairwise (fun a b =>
      (a.rank = none → b.rank = none) ∧
      (effRank a = effRank b → a.team_number ≤ b.team_number)) :=
  ⟨by
    intro t ht r hr
    fin_cases ht <;> simp_all <;> omega,
   c10_rank_sort teamsC10 (by
    intro t ht r hr
    fin_cases ht <;> simp_all <;> omega)⟩
